import Mathlib

/-!
# track.js: a shallow embedding of the telemetry agent

The script is one immediately-invoked function `(function(trackingUrl, apiKey) ...)`.
Its module-scoped variables (`isUnloading`, `scrollDepthTracked`, the debounce timer) become
fields of an explicit `State`; everything it reads from the browser (location, document,
screen, `localStorage`, `crypto`, the clock) is supplied by an `Env`; every `fetch` call it makes
is returned as a `Sent` record.
-/

namespace Track

/-! ## Identity store (`generateUUID`, `getDeviceId`) -/

/-- An exception raised while the script runs. -/
inductive JSError
  | typeError
  | hostError
  deriving DecidableEq, Repr

/-- How `window.crypto.randomUUID` presents itself during one call of a function of the script:
missing, callable (`ids k` is what its `k`-th call returns), or callable and raising. -/
inductive RandomUUID
  | absent
  | returns (ids : Nat → String)
  | throws

/-- The member `window.crypto`: each of the two generators the script looks for may be missing
(`window.crypto` itself missing is both missing). `getRandomValues` is given by the bytes it
hands out, `bytes k` for the `k`-th one-byte request. -/
structure Crypto where
  randomUUID : RandomUUID
  getRandomValues : Option (Nat → Nat)

/-- The object `localStorage` as `getDeviceId` sees it: whether it can be reached at all, whether
`getItem` / `setItem` raise, and the value stored under `LOCAL_STORAGE_KEY` (`none` is the `null`
that `getItem` returns for a missing key). -/
structure Storage where
  available : Bool
  getThrows : Bool
  setThrows : Bool
  item : Option String
  deriving DecidableEq, Repr

/-- JavaScript truthiness of a `string | null`: `null` and the empty string are falsy. -/
def truthy : Option String → Bool
  | none => false
  | some s => s != ""

/-- The point at which control leaves the `try` block of `getDeviceId` (lines 44-49): the value of
the local `deviceId`, the storage, how many times `crypto.randomUUID` has been called, and whether
the block was left by an exception. -/
structure TryExit where
  deviceId : Option String
  storage : Storage
  uuidCalls : Nat
  raised : Bool

/-- The `try` block of `getDeviceId`, lines 45-49. -/
def getDeviceIdTry (st : Storage) (gen : RandomUUID) : TryExit :=
  if !st.available || st.getThrows then
    -- `localStorage.getItem` raised: `deviceId` is still `null`
    ⟨none, st, 0, true⟩
  else
    let deviceId := st.item
    if truthy deviceId then ⟨deviceId, st, 0, false⟩
    else
      match gen with
      | .absent => ⟨deviceId, st, 0, false⟩
      | .throws => ⟨deviceId, st, 1, true⟩
      | .returns ids =>
        if st.setThrows then ⟨some (ids 0), st, 1, true⟩
        else ⟨some (ids 0), { st with item := some (ids 0) }, 1, false⟩

/-- The `catch` block of `getDeviceId`, lines 50-55; an exception raised here leaves the
function. -/
def getDeviceIdCatch (t : TryExit) (gen : RandomUUID) : Except JSError (Option String) :=
  if truthy t.deviceId then .ok t.deviceId
  else
    match gen with
    | .absent => .ok t.deviceId
    | .throws => .error .hostError
    | .returns ids => .ok (some (ids t.uuidCalls))

/-- Lines 56-59 of `getDeviceId`: a falsy `deviceId` is replaced by `'unknown-' + Date.now()`. -/
def orUnknown (deviceId : Option String) (now : Nat) : String :=
  match deviceId with
  | some d => if d != "" then d else "unknown-" ++ toString now
  | none => "unknown-" ++ toString now

/-- The function `getDeviceId`, lines 42-61; `now` is the reading of `Date.now()`. The result is
the returned identifier together with the storage as the call leaves it. -/
def getDeviceId (st : Storage) (gen : RandomUUID) (now : Nat) :
    Except JSError (String × Storage) :=
  let t := getDeviceIdTry st gen
  if t.raised then
    match getDeviceIdCatch t gen with
    | .error e => .error e
    | .ok deviceId => .ok (orUnknown deviceId now, t.storage)
  else .ok (orUnknown t.deviceId now, t.storage)

/-- The template of line 32. -/
def uuidTemplate : String := "xxxxxxxx-xxxx-4xxx-yxxx-xxxxxxxxxxxx"

/-- The replacement callback of lines 32-35 mapped over the template: the `k`-th `x` or `y` is
replaced by a hexadecimal digit made from the `k`-th random byte. -/
def fillTemplate (bytes : Nat → Nat) : List Char → Nat → List Char
  | [], _ => []
  | c :: cs, k =>
    if c = 'x' ∨ c = 'y' then
      let r := (bytes k % 256 % 16) >>> (if c = 'x' then 0 else 2)
      Nat.digitChar (if c = 'x' then r else (r % 4 ||| 8)) :: fillTemplate bytes cs (k + 1)
    else c :: fillTemplate bytes cs k

/-- The last twelve characters, left-padded with `0` to twelve (`slice(-12).padStart(12, '0')`). -/
def last12Padded (l : List Char) : List Char :=
  let tail := l.drop (l.length - 12)
  List.replicate (12 - tail.length) '0' ++ tail

/-- The function `generateUUID`, lines 26-40. -/
def generateUUID (c : Crypto) (now : Nat) : Except JSError String :=
  match c.randomUUID with
  | .returns ids => .ok (ids 0)
  | .throws => .error .hostError
  | .absent =>
    match c.getRandomValues with
    | some bytes => .ok (String.mk (fillTemplate bytes uuidTemplate.toList 0))
    | none => .ok ("fa11bac0-0000-4000-8000-" ++ String.mk (last12Padded (Nat.toDigits 16 now)))

/-! ## Serialisation (`JSON.stringify`, `encodeURIComponent`) -/

/-- A JavaScript number as the script produces them: an integer, or one of the three values a
division by zero yields. -/
inductive JSNumber
  | nan
  | posInf
  | negInf
  | int (n : Int)
  deriving DecidableEq, Repr

/-- A value stored under a key of `customProperties`. -/
inductive PropValue
  | undefined
  | number (n : JSNumber)
  | string (s : String)
  deriving DecidableEq, Repr

/-- The object `customProperties`: its own keys in insertion order. -/
abbrev Props := List (String × PropValue)

/-- A value stored under a key of an object handed to `JSON.stringify`. -/
inductive JSVal
  | undefined
  | number (n : JSNumber)
  | string (s : String)
  | object (fields : Props)
  deriving DecidableEq, Repr

/-- The double quote. -/
def dquote : Char := Char.ofNat 34

/-- The reverse solidus. -/
def rsolidus : Char := Char.ofNat 92

/-- Four lower-case hexadecimal digits. -/
def hex4 (n : Nat) : List Char :=
  [Nat.digitChar (n / 4096 % 16), Nat.digitChar (n / 256 % 16), Nat.digitChar (n / 16 % 16),
    Nat.digitChar (n % 16)]

/-- One character inside a JSON string literal, as `JSON.stringify` writes it. -/
def quoteChar (c : Char) : List Char :=
  if c = dquote then [rsolidus, dquote]
  else if c = rsolidus then [rsolidus, rsolidus]
  else if c.toNat = 8 then [rsolidus, 'b']
  else if c.toNat = 12 then [rsolidus, 'f']
  else if c.toNat = 10 then [rsolidus, 'n']
  else if c.toNat = 13 then [rsolidus, 'r']
  else if c.toNat = 9 then [rsolidus, 't']
  else if c.toNat < 32 then rsolidus :: 'u' :: hex4 c.toNat
  else [c]

/-- A JSON string literal. -/
def quote (s : String) : String :=
  String.mk (dquote :: (s.toList.flatMap quoteChar ++ [dquote]))

/-- A number as `JSON.stringify` writes it: non-finite numbers become `null`. -/
def stringifyNumber : JSNumber → String
  | .int n => toString n
  | _ => "null"

/-- The `"key":value` text of one property; a key holding `undefined` is left out. -/
def stringifyProp : String × PropValue → Option String
  | (_, .undefined) => none
  | (k, .number n) => some (quote k ++ ":" ++ stringifyNumber n)
  | (k, .string s) => some (quote k ++ ":" ++ quote s)

/-- The text `JSON.stringify` produces for an object of plain properties. -/
def stringifyProps (props : Props) : String :=
  "\x7b" ++ ",".intercalate (props.filterMap stringifyProp) ++ "\x7d"

/-- The `"key":value` text of one field; a key holding `undefined` is left out. -/
def stringifyField : String × JSVal → Option String
  | (_, .undefined) => none
  | (k, .number n) => some (quote k ++ ":" ++ stringifyNumber n)
  | (k, .string s) => some (quote k ++ ":" ++ quote s)
  | (k, .object fields) => some (quote k ++ ":" ++ stringifyProps fields)

/-- The text `JSON.stringify` produces for an object. -/
def stringify (fields : List (String × JSVal)) : String :=
  "\x7b" ++ ",".intercalate (fields.filterMap stringifyField) ++ "\x7d"

/-- The characters `encodeURIComponent` leaves as they are. -/
def uriUnreserved (c : Char) : Bool :=
  c.isAlphanum || c ∈ ['-', '_', '.', '!', '~', '*', Char.ofNat 39, '(', ')']

/-- The UTF-8 bytes of a character. -/
def utf8Bytes (c : Char) : List Nat :=
  let n := c.toNat
  if n < 128 then [n]
  else if n < 2048 then [192 + n / 64, 128 + n % 64]
  else if n < 65536 then [224 + n / 4096, 128 + n / 64 % 64, 128 + n % 64]
  else [240 + n / 262144, 128 + n / 4096 % 64, 128 + n / 64 % 64, 128 + n % 64]

/-- One byte as `%XX`, upper-case. -/
def pctByte (b : Nat) : List Char :=
  ['%', (Nat.digitChar (b / 16)).toUpper, (Nat.digitChar (b % 16)).toUpper]

/-- One character as `encodeURIComponent` writes it. -/
def encodeChar (c : Char) : List Char :=
  if uriUnreserved c then [c] else (utf8Bytes c).flatMap pctByte

/-- The function `encodeURIComponent`. -/
def encodeURIComponent (s : String) : String :=
  String.mk (s.toList.flatMap encodeChar)

/-- The method `String.prototype.includes`. -/
def includes (hay needle : String) : Bool :=
  hay.toList.tails.any fun t => needle.toList.isPrefixOf t

/-- The segments `s.split('/')` yields, as character lists. -/
def splitSlash : List Char → List (List Char)
  | [] => [[]]
  | c :: cs =>
    if c = '/' then [] :: splitSlash cs
    else
      match splitSlash cs with
      | [] => [[c]]
      | seg :: rest => (c :: seg) :: rest

/-- The expression `trackingUrl.split('/').pop()` of line 4. -/
def lastSegment (url : String) : String :=
  String.mk ((splitSlash url.toList).getLastD [])

/-! ## The browser around the script -/

/-- What one run of `trackEvent` or `loadPixel` reads from the browser at the moment it runs. -/
structure Ambient where
  now : Nat   -- `Date.now()`
  isoTime : String   -- `new Date().toISOString()`
  uuid : Nat → String   -- `crypto.randomUUID()`, by call number, where the method exists
  href : String   -- `location.href`
  title : String   -- `document.title`
  referrer : String   -- `document.referrer`
  searchParam : String → Option String   -- `new URLSearchParams(location.search).get(name)`
  screenWidth : Nat   -- `screen.width`
  screenHeight : Nat   -- `screen.height`
  innerWidth : Nat   -- `window.innerWidth`
  innerHeight : Nat   -- `window.innerHeight`

/-- How the property `window.localStorage` presents itself when it is read: it holds the
storage object, it holds nothing (`undefined` or `null`), or reading it raises (`SecurityError`,
where the browser blocks storage for the page). -/
inductive StorageAccess
  | present
  | missing
  | blocked
  deriving DecidableEq, Repr

/-- The browser the script runs in. `crypto.randomUUID`, where a browser has it, returns a string
and has no failure mode, so it is either missing or present; `localStorage` may be missing,
blocked, or raise in its methods. `ambient k` is what the `k`-th run of `trackEvent` /
`loadPixel` reads. -/
structure Env where
  hostname : String   -- `location.hostname`
  search : String   -- `location.search`
  storageAccess : StorageAccess
  getThrows : Bool
  setThrows : Bool
  initialItem : Option String   -- the entry under `LOCAL_STORAGE_KEY` when the script starts
  hasRandomUUID : Bool
  ambient : Nat → Ambient

/-- The module-scoped variables of the script, the `localStorage` entry it owns, whether the
debounce timer of line 266 is pending, and how many runs of `trackEvent` / `loadPixel` have read
the browser so far. -/
structure State where
  isUnloading : Bool
  scrollDepthTracked : Nat → Bool
  scrollTimeout : Bool
  stored : Option String
  runs : Nat

/-- The constants fixed when the script starts: the argument `apiKey`, and `DEBUG_MODE` and
`trackingID` of lines 3-4. -/
structure Config where
  apiKey : String
  debugMode : Bool
  trackingID : String
  deriving DecidableEq, Repr

/-- The object `localStorage` as the browser `env` offers it to `getDeviceId` when the entry
holds `item`: the expression `localStorage.getItem` can be evaluated only where the property
holds the storage object; where it is missing or blocked the expression raises, inside the
`try`. -/
def Env.storage (env : Env) (item : Option String) : Storage :=
  ⟨decide (env.storageAccess = .present), env.getThrows, env.setThrows, item⟩

/-- The method `crypto.randomUUID` as the browser `env` offers it to the run that reads `a`. -/
def Env.randomUUID (env : Env) (a : Ambient) : RandomUUID :=
  if env.hasRandomUUID then .returns a.uuid else .absent

/-! ## Payload builder and delivery channel (`trackEvent`, `loadPixel`) -/

/-- The object `payload` of lines 120-139; an optional field is `none` where the source holds
`undefined`. -/
structure Payload where
  deviceId : String
  pixelTimestamp : String
  eventSignal : String
  pageUrl : String
  pageTitle : String
  eventReferrerUrl : Option String
  outlinkUrl : Option String
  customProperties : Option Props
  utmSource : Option String
  utmMedium : Option String
  utmCampaign : Option String
  utmTerm : Option String
  utmContent : Option String
  screenWidth : Nat
  screenHeight : Nat
  viewportWidth : Nat
  viewportHeight : Nat
  pixelVersion : String
  deriving DecidableEq, Repr

/-- An optional string as an object field. -/
def optString : Option String → JSVal
  | none => .undefined
  | some s => .string s

/-- An optional properties object as an object field. -/
def optProps : Option Props → JSVal
  | none => .undefined
  | some ps => .object ps

/-- The keys and values of `payload`, in the order of lines 120-139. -/
def Payload.fields (p : Payload) : List (String × JSVal) :=
  [("deviceId", .string p.deviceId),
   ("pixelTimestamp", .string p.pixelTimestamp),
   ("eventSignal", .string p.eventSignal),
   ("pageUrl", .string p.pageUrl),
   ("pageTitle", .string p.pageTitle),
   ("eventReferrerUrl", optString p.eventReferrerUrl),
   ("outlinkUrl", optString p.outlinkUrl),
   ("customProperties", optProps p.customProperties),
   ("utmSource", optString p.utmSource),
   ("utmMedium", optString p.utmMedium),
   ("utmCampaign", optString p.utmCampaign),
   ("utmTerm", optString p.utmTerm),
   ("utmContent", optString p.utmContent),
   ("screenWidth", .number (.int p.screenWidth)),
   ("screenHeight", .number (.int p.screenHeight)),
   ("viewportWidth", .number (.int p.viewportWidth)),
   ("viewportHeight", .number (.int p.viewportHeight)),
   ("pixelVersion", .string p.pixelVersion)]

/-- The arguments of one `fetch` call: the address, the two members of the object whose
`JSON.stringify` is the request body, and whether `keepalive: true` is passed. Both calls of the
script use method `POST` and content type `application/json`. -/
structure FetchCall where
  url : String
  apiKey : String
  options : String
  keepalive : Bool
  deriving DecidableEq, Repr

/-- The request body, `JSON.stringify({apiKey, options})` (lines 79-82 and 154-157). -/
def FetchCall.body (c : FetchCall) : String :=
  stringify [("apiKey", .string c.apiKey), ("options", .string c.options)]

/-- One delivery: the object the script built and the `fetch` call it made with it. -/
inductive Sent
  | event (payload : Payload) (call : FetchCall)
  | bootstrap (deviceId trackingId : String) (call : FetchCall)
  deriving DecidableEq, Repr

/-- The address both `fetch` calls post to. -/
def proxyUrl : String := "https://proxyprovider-vhkdzfr2sq-uc.a.run.app"

/-- The constant `PIXEL_VERSION`. -/
def PIXEL_VERSION : String := "4.1.4"

/-- The second argument of `trackEvent`, after the destructuring of line 109 except for the
default of `customProperties`. -/
structure Details where
  customProperties : Option Props
  outlinkUrl : Option String

/-- The default `details = {}`. -/
def Details.empty : Details := ⟨none, none⟩

/-- The idiom `x || undefined` on a `string | null`. -/
def orUndefined (x : Option String) : Option String :=
  if truthy x then x else none

/-- The object `payload` built on lines 109-139. -/
def buildPayload (a : Ambient) (deviceId eventSignal : String) (details : Details) : Payload :=
  let customProperties : Props := details.customProperties.getD []
  { deviceId := deviceId
    pixelTimestamp := a.isoTime
    eventSignal := eventSignal
    pageUrl := a.href
    pageTitle := a.title
    eventReferrerUrl := orUndefined (some a.referrer)
    outlinkUrl := details.outlinkUrl
    customProperties := if customProperties.length > 0 then some customProperties else none
    utmSource := orUndefined (a.searchParam "utm_source")
    utmMedium := orUndefined (a.searchParam "utm_medium")
    utmCampaign := orUndefined (a.searchParam "utm_campaign")
    utmTerm := orUndefined (a.searchParam "utm_term")
    utmContent := orUndefined (a.searchParam "utm_content")
    screenWidth := a.screenWidth
    screenHeight := a.screenHeight
    viewportWidth := a.innerWidth
    viewportHeight := a.innerHeight
    pixelVersion := PIXEL_VERSION }

/-- The `fetch` call of lines 149-158. -/
def trackCall (cfg : Config) (payload : Payload) : FetchCall :=
  { url := proxyUrl
    apiKey := cfg.apiKey
    options := stringify payload.fields
    keepalive := !cfg.debugMode }

/-- The function `trackEvent`, lines 101-170. It is `async` without an `await`: its body runs
to the end when it is called, and an exception inside it rejects the returned promise instead of
reaching the caller. `fetch` is taken to exist, so the call of line 149 is made. The result is
the state the call leaves and the deliveries it made. -/
def trackEvent (env : Env) (cfg : Config) (s : State) (eventSignal : String)
    (details : Details) : State × List Sent :=
  if eventSignal = "" then (s, [])
  else
    let a := env.ambient s.runs
    let s1 := { s with runs := s.runs + 1 }
    match getDeviceId (env.storage s.stored) (env.randomUUID a) a.now with
    | .error _ => (s1, [])
    | .ok (deviceId, st) =>
      let s2 := { s1 with stored := st.item }
      let payload := buildPayload a deviceId eventSignal details
      if eventSignal = "page_blur" ∧ s.isUnloading = true then (s2, [])
      else (s2, [Sent.event payload (trackCall cfg payload)])

/-- The `fetch` call of lines 70-82. -/
def pixelCall (cfg : Config) (deviceId : String) : FetchCall :=
  { url := proxyUrl
    apiKey := cfg.apiKey
    options :=
      encodeURIComponent
        (stringify [("deviceId", .string deviceId), ("trackingId", .string cfg.trackingID)])
    keepalive := false }

/-- The function `loadPixel`, lines 64-98, up to the `fetch` call; what is done with the
response is outside the model. -/
def loadPixel (env : Env) (cfg : Config) (s : State) : State × List Sent :=
  if cfg.apiKey = "" then (s, [])
  else
    let a := env.ambient s.runs
    let s1 := { s with runs := s.runs + 1 }
    match getDeviceId (env.storage s.stored) (env.randomUUID a) a.now with
    | .error _ => (s1, [])
    | .ok (deviceId, st) =>
      ({ s1 with stored := st.item }, [Sent.bootstrap deviceId cfg.trackingID (pixelCall cfg deviceId)])

/-! ## Signal emitters (the listeners of lines 175-267) and start-up -/

/-- The hyperlink `clickedElement.closest('a')`. -/
structure Anchor where
  href : String   -- `link.href`
  url : Option (String × String)   -- `hostname` and `href` of `new URL(link.href, location.href)`; `none` when the constructor raises
  text : String   -- `link.textContent?.trim().substring(0, 100) || ''`
  target : String   -- `link.target`
  deriving DecidableEq, Repr

/-- The element `event.target` of a click. -/
structure Element where
  id : String   -- `clickedElement.id`
  tagNameLower : String   -- `clickedElement.tagName.toLowerCase()`
  text : String   -- `clickedElement.textContent?.trim().substring(0, 100) || ''`
  closestA : Option Anchor   -- `clickedElement.closest('a')`
  deriving DecidableEq, Repr

/-- What the browser delivers to the script after start-up: the five events it listens to, and
the debounce timer of line 266 running out, at which moment line 245 evaluates to `percent`. -/
inductive Signal
  | click (target : Option Element)   -- `none`: the target is not an `Element`
  | focus
  | blur
  | beforeunload
  | scroll
  | scrollTimer (percent : JSNumber)
  deriving DecidableEq, Repr

/-- The comparison `scrollPercent >= depth` of line 248. -/
def JSNumber.ge (p : JSNumber) (depth : Nat) : Bool :=
  match p with
  | .nan => false
  | .negInf => false
  | .posInf => true
  | .int n => decide ((depth : Int) ≤ n)

/-- The thresholds the loop of line 247 runs over. -/
def depths : List Nat := [25, 50, 75, 100]

/-- One turn of the loop of lines 247-257, for threshold `depth`. -/
def scrollDepthStep (env : Env) (cfg : Config) (percent : JSNumber) (acc : State × List Sent)
    (depth : Nat) : State × List Sent :=
  if percent.ge depth ∧ acc.1.scrollDepthTracked depth = false then
    let s1 := { acc.1 with
      scrollDepthTracked := fun d => if d = depth then true else acc.1.scrollDepthTracked d }
    let r := trackEvent env cfg s1 "scroll_depth"
      ⟨some [("scrollDepth", .number (.int depth)), ("scrollPercent", .number percent)], none⟩
    (r.1, acc.2 ++ r.2)
  else acc

/-- The function `trackScrollDepth`, lines 235-258, from the point where `scrollPercent` has
been computed. -/
def trackScrollDepth (env : Env) (cfg : Config) (s : State) (percent : JSNumber) :
    State × List Sent :=
  depths.foldl (scrollDepthStep env cfg percent) (s, [])

/-- The click listener, lines 175-208. -/
def onClick (env : Env) (cfg : Config) (s : State) (target : Option Element) :
    State × List Sent :=
  match target with
  | none => (s, [])
  | some el =>
    let r1 :=
      if el.id ≠ "" then
        trackEvent env cfg s "click"
          ⟨some [("elementId", .string el.id), ("elementTagName", .string el.tagNameLower),
            ("elementText", .string el.text)], none⟩
      else (s, [])
    match el.closestA with
    | none => r1
    | some link =>
      if link.href ≠ "" then
        match link.url with
        | none => r1
        | some (hostname, href) =>
          if hostname ≠ env.hostname then
            let r2 := trackEvent env cfg r1.1 "outlink"
              ⟨some [("linkText", .string link.text),
                ("linkTarget", if link.target ≠ "" then .string link.target else .undefined)],
                some href⟩
            (r2.1, r1.2 ++ r2.2)
          else r1
      else r1

/-- The listener or timer callback that `sig` runs. -/
def handle (env : Env) (cfg : Config) (s : State) (sig : Signal) : State × List Sent :=
  match sig with
  | .click target => onClick env cfg s target
  | .focus => if s.isUnloading = false then trackEvent env cfg s "page_focus" Details.empty else (s, [])
  | .blur => if s.isUnloading = false then trackEvent env cfg s "page_blur" Details.empty else (s, [])
  | .beforeunload => trackEvent env cfg { s with isUnloading := true } "page_unload" Details.empty
  | .scroll => ({ s with scrollTimeout := true }, [])
  | .scrollTimer percent =>
    if s.scrollTimeout = true then trackScrollDepth env cfg { s with scrollTimeout := false } percent
    else (s, [])

/-- The name of the event whose listener `sig` needs; the timer needs none, it is pending only
when the scroll listener has set it. -/
def Signal.eventName : Signal → Option String
  | .click _ => some "click"
  | .focus => some "focus"
  | .blur => some "blur"
  | .beforeunload => some "beforeunload"
  | .scroll => some "scroll"
  | .scrollTimer _ => none

/-- The script after start-up: its constants, the events it has a listener for, in the order of
registration, and its state. -/
structure Agent where
  cfg : Config
  listeners : List String
  state : State

/-- The values of the module-scoped variables when they are declared (lines 23, 233, 261). -/
def State.initial (env : Env) : State :=
  { isUnloading := false
    scrollDepthTracked := fun _ => false
    scrollTimeout := false
    stored := env.initialItem
    runs := 0 }

/-- The constant `DEBUG_MODE` of line 3. -/
def debugMode (env : Env) : Bool :=
  env.hostname = "localhost" || includes env.search "mdb_pixel_debug=true"

/-- The body of the script, lines 3-269, run with the arguments `trackingUrl` (`none` when the
argument is not supplied) and `apiKey`: the agent it leaves and the deliveries made while it
runs, or the exception that ends it. Line 4 calls `split` on the argument before anything checks
it; the test of line 13 reads `window.crypto`, which cannot raise; the test of line 16 reads
`window.localStorage` outside any `try`, so where that read raises the script ends there. -/
def init (env : Env) (trackingUrl : Option String) (apiKey : String) :
    Except JSError (Agent × List Sent) :=
  match trackingUrl with
  | none => .error .typeError
  | some url =>
    let trackingID := lastSegment url
    let cfg : Config := ⟨apiKey, debugMode env, trackingID⟩
    if url = "" ∨ includes url "TRACKING_ENDPOINT" = true ∨ trackingID = "" then
      .ok (⟨cfg, [], State.initial env⟩, [])
    else if env.storageAccess = .blocked then .error .hostError
    else
      let r1 := trackEvent env cfg (State.initial env) "pageview" Details.empty
      let r2 := loadPixel env cfg r1.1
      .ok (⟨cfg, ["click", "focus", "blur", "beforeunload", "scroll"], r2.1⟩, r1.2 ++ r2.2)

/-- The agent receives one signal: the listener runs if it is registered. -/
def Agent.step (env : Env) (ag : Agent) (sig : Signal) : Agent × List Sent :=
  match sig.eventName with
  | some name =>
    if name ∈ ag.listeners then
      let r := handle env ag.cfg ag.state sig
      ({ ag with state := r.1 }, r.2)
    else (ag, [])
  | none =>
    let r := handle env ag.cfg ag.state sig
    ({ ag with state := r.1 }, r.2)

/-- The agent receives a sequence of signals; the deliveries are collected signal by signal. -/
def Agent.run (env : Env) (ag : Agent) : List Signal → Agent × List (List Sent)
  | [] => (ag, [])
  | sig :: rest =>
    let r := ag.step env sig
    let rs := Agent.run env r.1 rest
    (rs.1, r.2 :: rs.2)

/-! ## Observations on deliveries, and the notions the statements below use -/

/-- The event name of a delivery made by `trackEvent`. -/
def Sent.signal : Sent → Option String
  | .event p _ => some p.eventSignal
  | .bootstrap _ _ _ => none

/-- The `customProperties` of a delivery made by `trackEvent`. -/
def Sent.props : Sent → Option Props
  | .event p _ => p.customProperties
  | .bootstrap _ _ _ => none

/-- The event name and the `customProperties` of a delivery. -/
def Sent.view (x : Sent) : Option String × Option Props := (x.signal, x.props)

/-- The threshold a `scroll_depth` delivery reports under `scrollDepth`. -/
def Sent.scrollDepth : Sent → Option Nat
  | .event p _ =>
    if p.eventSignal = "scroll_depth" then
      match p.customProperties with
      | some props =>
        match props.lookup "scrollDepth" with
        | some (.number (.int t)) => some t.toNat
        | _ => none
      | none => none
    else none
  | .bootstrap _ _ _ => none

/-- The address an `outlink` delivery reports under `outlinkUrl`. -/
def Sent.outlink : Sent → Option (Option String)
  | .event p _ => if p.eventSignal = "outlink" then some p.outlinkUrl else none
  | .bootstrap _ _ _ => none

/-- What a `scroll_depth` delivery for threshold `t` at percentage `p` shows. -/
def scrollDepthEvent (p : JSNumber) (t : Nat) : Option String × Option Props :=
  (some "scroll_depth", some [("scrollDepth", .number (.int t)), ("scrollPercent", .number p)])

/-- The thresholds reported by the `scroll_depth` deliveries among `xs`, in order. -/
def emittedDepths (xs : List Sent) : List Nat := xs.filterMap Sent.scrollDepth

/-- A sequence of scroll evaluations (calls of `trackScrollDepth`), the deliveries collected
evaluation by evaluation. -/
def scrollEvaluations (env : Env) (cfg : Config) (s : State) :
    List JSNumber → State × List (List Sent)
  | [] => (s, [])
  | p :: ps =>
    let r := trackScrollDepth env cfg s p
    let rs := scrollEvaluations env cfg r.1 ps
    (rs.1, r.2 :: rs.2)

/-- The whole number nearest to `n / d`, a half going to the even neighbour. -/
def roundHalfEven (n d : Nat) : Nat :=
  let q := n / d
  let r := n % d
  if 2 * r < d then q
  else if d < 2 * r then q + 1
  else if q % 2 = 0 then q else q + 1

/-- A finite non-negative double-precision number, as `mant * 2 ^ exp`. -/
structure Double where
  mant : Nat
  exp : Int
  deriving DecidableEq, Repr

/-- The fraction `n / (d * 2 ^ e)` as a numerator and a denominator. -/
def scaled (n d : Nat) (e : Int) : Nat × Nat :=
  if 0 ≤ e then (n, d * 2 ^ e.toNat) else (n * 2 ^ (-e).toNat, d)

/-- The number of binary digits of `n`, counted in at most `fuel` halvings. -/
def bitLength : Nat → Nat → Nat
  | 0, _ => 0
  | fuel + 1, n => if n = 0 then 0 else 1 + bitLength fuel (n / 2)

/-- The double nearest to `n / d`, ties to even, for `d > 0` and a quotient in the normal range
of doubles: the exponent is the one that gives the mantissa 53 bits, found from the numbers of
binary digits of `n` and `d` and corrected by one where that estimate is off. -/
def toDouble (n d : Nat) : Double :=
  if n = 0 then ⟨0, 0⟩
  else
    let e0 : Int := (bitLength n n : Int) - (bitLength d d : Int) - 52
    let s0 := scaled n d e0
    let e : Int :=
      if 2 ^ 53 * s0.2 ≤ s0.1 then e0 + 1
      else if s0.1 < 2 ^ 52 * s0.2 then e0 - 1
      else e0
    let s := scaled n d e
    ⟨roundHalfEven s.1 s.2, e⟩

/-- The product of a double and a whole number, in double precision. -/
def Double.mulNat (x : Double) (k : Nat) : Double :=
  if 0 ≤ x.exp then toDouble (x.mant * k * 2 ^ x.exp.toNat) 1
  else toDouble (x.mant * k) (2 ^ (-x.exp).toNat)

/-- The function `Math.round` on a non-negative double: the nearest whole number, a half going
up. -/
def Double.round (x : Double) : Nat :=
  if 0 ≤ x.exp then x.mant * 2 ^ x.exp.toNat
  else (2 * x.mant + 2 ^ (-x.exp).toNat) / (2 * 2 ^ (-x.exp).toNat)

/-- What lines 236-244 read from the page, where every reading is a whole number of pixels
below `2 ^ 53`. -/
structure Measurements where
  pageYOffset : Nat   -- `window.pageYOffset`
  scrollTop : Nat   -- `document.documentElement.scrollTop`
  bodyScrollHeight : Nat   -- `document.body.scrollHeight`
  bodyOffsetHeight : Nat   -- `document.body.offsetHeight`
  clientHeight : Nat   -- `document.documentElement.clientHeight`
  scrollHeight : Nat   -- `document.documentElement.scrollHeight`
  offsetHeight : Nat   -- `document.documentElement.offsetHeight`
  innerHeight : Nat   -- `window.innerHeight`
  deriving DecidableEq, Repr

/-- The value of `scrollPercent`, lines 236-245, in double precision as the source computes it:
the quotient is rounded to a double, its product with 100 is rounded to a double, and
`Math.round` is applied to that. A zero `documentHeight` gives `NaN` or `Infinity`. -/
def scrollPercent (m : Measurements) : JSNumber :=
  let scrollTop := if m.pageYOffset ≠ 0 then m.pageYOffset else m.scrollTop
  let documentHeight :=
    Nat.max m.bodyScrollHeight
      (Nat.max m.bodyOffsetHeight
        (Nat.max m.clientHeight (Nat.max m.scrollHeight m.offsetHeight)))
  let windowHeight := m.innerHeight
  if documentHeight = 0 then
    if scrollTop + windowHeight = 0 then .nan else .posInf
  else .int (((toDouble (scrollTop + windowHeight) documentHeight).mulNat 100).round : Nat)

/-- The flags record exactly the thresholds delivered so far, and none was delivered twice. -/
def FlagsMatch (s : State) (emitted : List Nat) : Prop :=
  (∀ d, s.scrollDepthTracked d = true ↔ d ∈ emitted) ∧ emitted.Nodup

/-- Where a blur listener exists, the page is unloading. -/
def BlurSilenced (ag : Agent) : Prop :=
  "blur" ∈ ag.listeners → ag.state.isUnloading = true

/-- The wire format of a delivery under the constants `cfg`: a tracking call is the `fetch` call
of lines 149-158 on its payload, a bootstrap call the one of lines 74-82. -/
def WireFormat (cfg : Config) : Sent → Prop
  | .event p c => c = trackCall cfg p
  | .bootstrap d t c => t = cfg.trackingID ∧ c = pixelCall cfg d

/-- A browser for the worked examples: storage works and is empty, `crypto.randomUUID` is
missing, the page is `https://site.example/`. -/
def sampleEnv : Env :=
  { hostname := "site.example"
    search := ""
    storageAccess := .present
    getThrows := false
    setThrows := false
    initialItem := none
    hasRandomUUID := false
    ambient := fun k =>
      { now := 1700000000000 + k
        isoTime := "2023-11-14T22:13:20.000Z"
        uuid := fun _ => "00000000-0000-4000-8000-000000000000"
        href := "https://site.example/"
        title := "Home"
        referrer := ""
        searchParam := fun _ => none
        screenWidth := 1920
        screenHeight := 1080
        innerWidth := 1280
        innerHeight := 800 } }

/-- The browser of `sampleEnv` with storage blocked: reading `window.localStorage` raises. -/
def blockedEnv : Env := { sampleEnv with storageAccess := .blocked }

/-- The constants for the worked examples. -/
def sampleConfig : Config := ⟨"key", false, "abc123"⟩

/-- A hyperlink to another host. -/
def outboundAnchor : Anchor :=
  ⟨"https://shop.example/cart", some ("shop.example", "https://shop.example/cart"), "Buy", ""⟩

/-- An element with an `id` inside a hyperlink to another host. -/
def outboundElement : Element := ⟨"buy", "span", "Buy", some outboundAnchor⟩

/-- A hyperlink to the host of the page of `sampleEnv`. -/
def internalAnchor : Anchor :=
  ⟨"https://site.example/about", some ("site.example", "https://site.example/about"), "About",
    ""⟩

/-- A hyperlink without an `id`, to the host of the page. -/
def internalElement : Element := ⟨"", "a", "About", some internalAnchor⟩

/-- A storage that works and holds nothing. -/
def emptyStorage : Storage := ⟨true, false, false, none⟩

/-! ## Lemmas: identity store -/

theorem unknown_ne_empty (now : Nat) : "unknown-" ++ toString now ≠ "" := by
  intro h
  have h2 := congrArg String.length h
  rw [String.length_append] at h2
  have h3 : "unknown-".length = 8 := by decide
  have h4 : "".length = 0 := by decide
  omega

theorem orUnknown_ne_empty (d : Option String) (now : Nat) : orUnknown d now ≠ "" := by
  have hu := unknown_ne_empty now
  unfold orUnknown
  split
  · split
    · simp_all
    · exact hu
  · exact hu

theorem orUnknown_truthy {d : String} (now : Nat) (h : d ≠ "") : orUnknown (some d) now = d := by
  simp [orUnknown, h]

theorem orUnknown_falsy {d : Option String} (now : Nat) (h : truthy d = false) :
    orUnknown d now = "unknown-" ++ toString now := by
  cases d with
  | none => rfl
  | some d => simp [truthy] at h; simp [orUnknown, h]

theorem getDeviceIdCatch_ok (t : TryExit) (gen : RandomUUID) (h : gen ≠ .throws) :
    ∃ d, getDeviceIdCatch t gen = .ok d := by
  unfold getDeviceIdCatch
  split
  · exact ⟨_, rfl⟩
  · cases gen
    · exact ⟨_, rfl⟩
    · exact ⟨_, rfl⟩
    · exact absurd rfl h

/-- The call leaves by an exception exactly when the catch block does. -/
theorem getDeviceId_error_iff (st : Storage) (gen : RandomUUID) (now : Nat) :
    (∃ e, getDeviceId st gen now = .error e) ↔
      (gen = .throws ∧ ¬ (st.available = true ∧ st.getThrows = false ∧ truthy st.item = true)) := by
  obtain ⟨av, gt, stt, item⟩ := st
  by_cases hg : gen = .throws
  · subst hg
    cases av <;> cases gt <;> cases h : truthy item <;>
      simp [getDeviceId, getDeviceIdTry, getDeviceIdCatch, h, show truthy none = false from rfl]
  · simp only [hg, false_and, iff_false, not_exists]
    intro e
    unfold getDeviceId
    simp only
    split
    · obtain ⟨d, hd⟩ := getDeviceIdCatch_ok (getDeviceIdTry ⟨av, gt, stt, item⟩ gen) gen hg
      rw [hd]
      simp
    · simp

theorem getDeviceId_ok_form {st : Storage} {gen : RandomUUID} {now : Nat} {r : String × Storage}
    (h : getDeviceId st gen now = .ok r) : ∃ d, r.1 = orUnknown d now := by
  unfold getDeviceId at h
  simp only at h
  split at h
  · split at h
    · cases h
    · cases h; exact ⟨_, rfl⟩
  · cases h; exact ⟨_, rfl⟩

theorem getDeviceId_stored (st : Storage) (gen : RandomUUID) (now : Nat) (d : String)
    (hav : st.available = true) (hget : st.getThrows = false) (hitem : st.item = some d)
    (hd : d ≠ "") : getDeviceId st gen now = .ok (d, st) := by
  obtain ⟨av, gt, stt, item⟩ := st
  simp only at hav hget hitem
  subst hav hget hitem
  have ht : truthy (some d) = true := by simp [truthy, hd]
  simp [getDeviceId, getDeviceIdTry, ht, orUnknown, hd]

theorem getDeviceId_fresh (st : Storage) (ids : Nat → String) (now : Nat)
    (hav : st.available = true) (hget : st.getThrows = false) (hset : st.setThrows = false)
    (hitem : truthy st.item = false) (hid : ids 0 ≠ "") :
    getDeviceId st (.returns ids) now = .ok (ids 0, { st with item := some (ids 0) }) := by
  obtain ⟨av, gt, stt, item⟩ := st
  simp only at hav hget hset hitem
  subst hav hget hset
  simp [getDeviceId, getDeviceIdTry, hitem, orUnknown, hid]

/-! ## Lemmas: `trackEvent` and the scroll loop -/

theorem env_randomUUID_ne_throws (env : Env) (a : Ambient) : env.randomUUID a ≠ .throws := by
  unfold Env.randomUUID
  split <;> simp

theorem env_getDeviceId_ok (env : Env) (item : Option String) (a : Ambient) :
    ∃ id st, getDeviceId (env.storage item) (env.randomUUID a) a.now = .ok (id, st) := by
  cases hr : getDeviceId (env.storage item) (env.randomUUID a) a.now with
  | error e =>
    have := (getDeviceId_error_iff _ _ _).1 ⟨e, hr⟩
    exact absurd this.1 (env_randomUUID_ne_throws env a)
  | ok r => exact ⟨r.1, r.2, rfl⟩

/-- A call of `trackEvent` with a non-empty event name builds one payload and, unless it is a
`page_blur` during unloading, delivers it; it touches only the stored identifier and the run
counter. -/
theorem trackEvent_spec (env : Env) (cfg : Config) (s : State) (sig : String) (d : Details)
    (hsig : sig ≠ "") :
    ∃ id item, trackEvent env cfg s sig d =
      ({ s with runs := s.runs + 1, stored := item },
        if sig = "page_blur" ∧ s.isUnloading = true then []
        else [Sent.event (buildPayload (env.ambient s.runs) id sig d)
                (trackCall cfg (buildPayload (env.ambient s.runs) id sig d))]) := by
  obtain ⟨id, st, hok⟩ := env_getDeviceId_ok env s.stored (env.ambient s.runs)
  refine ⟨id, st.item, ?_⟩
  unfold trackEvent
  simp only [hsig, if_false, hok]
  split <;> rfl

theorem scrollDepth_of_event (a : Ambient) (id : String) (p : JSNumber) (t : Nat) (c : FetchCall) :
    Sent.scrollDepth (Sent.event (buildPayload a id "scroll_depth"
      ⟨some [("scrollDepth", .number (.int t)), ("scrollPercent", .number p)], none⟩) c) = some t := by
  simp [Sent.scrollDepth, buildPayload, List.lookup]

theorem view_of_event (a : Ambient) (id : String) (p : JSNumber) (t : Nat) (c : FetchCall) :
    Sent.view (Sent.event (buildPayload a id "scroll_depth"
      ⟨some [("scrollDepth", .number (.int t)), ("scrollPercent", .number p)], none⟩) c)
      = scrollDepthEvent p t := by
  simp [Sent.view, Sent.signal, Sent.props, buildPayload, scrollDepthEvent]

/-- One turn of the loop, described: either nothing happens, or the flag of `depth` is set and
one `scroll_depth` delivery for `depth` is appended. -/
theorem scrollDepthStep_spec (env : Env) (cfg : Config) (p : JSNumber) (s : State)
    (out : List Sent) (depth : Nat) :
    ∃ s' ys, scrollDepthStep env cfg p (s, out) depth = (s', out ++ ys) ∧
      s'.isUnloading = s.isUnloading ∧ s'.scrollTimeout = s.scrollTimeout ∧
      (∀ d, s'.scrollDepthTracked d =
        (s.scrollDepthTracked d || (decide (d = depth) && p.ge depth))) ∧
      ys.map Sent.view =
        ([depth].filter fun t => p.ge t && !s.scrollDepthTracked t).map (scrollDepthEvent p) ∧
      ys.filterMap Sent.scrollDepth =
        [depth].filter fun t => p.ge t && !s.scrollDepthTracked t := by
  unfold scrollDepthStep
  by_cases hc : p.ge depth = true ∧ s.scrollDepthTracked depth = false
  · obtain ⟨hge, htr⟩ := hc
    simp only [hge, htr, and_self, if_true]
    obtain ⟨id, item, hte⟩ := trackEvent_spec env cfg
      { s with scrollDepthTracked := fun d => if d = depth then true else s.scrollDepthTracked d }
      "scroll_depth"
      ⟨some [("scrollDepth", .number (.int depth)), ("scrollPercent", .number p)], none⟩
      (by decide)
    rw [hte]
    refine ⟨_, _, rfl, rfl, rfl, ?_, ?_, ?_⟩
    · intro d
      by_cases hd : d = depth
      · simp [hd, hge]
      · simp [hd]
    · simp only [show ¬ ("scroll_depth" = "page_blur" ∧ s.isUnloading = true) from
        fun h => absurd h.1 (by decide), if_false, List.map_cons, List.map_nil]
      rw [view_of_event]
      simp [List.filter, hge, htr]
    · simp only [show ¬ ("scroll_depth" = "page_blur" ∧ s.isUnloading = true) from
        fun h => absurd h.1 (by decide), if_false, List.filterMap_cons, List.filterMap_nil]
      rw [scrollDepth_of_event]
      simp [List.filter, hge, htr]
  · simp only [hc, if_false]
    refine ⟨s, [], by simp, rfl, rfl, ?_, ?_, ?_⟩
    · intro d
      by_cases hd : d = depth
      · subst hd
        cases hg : p.ge d <;> cases ht : s.scrollDepthTracked d <;> simp_all
      · simp [hd]
    · cases hg : p.ge depth <;> cases ht : s.scrollDepthTracked depth <;> simp_all [List.filter]
    · cases hg : p.ge depth <;> cases ht : s.scrollDepthTracked depth <;> simp_all [List.filter]

/-- The loop over any duplicate-free list of thresholds. -/
theorem scrollDepth_fold (env : Env) (cfg : Config) (p : JSNumber) (ds : List Nat)
    (hnd : ds.Nodup) (s : State) (out : List Sent) :
    ∃ s' ys, ds.foldl (scrollDepthStep env cfg p) (s, out) = (s', out ++ ys) ∧
      s'.isUnloading = s.isUnloading ∧ s'.scrollTimeout = s.scrollTimeout ∧
      (∀ d, s'.scrollDepthTracked d =
        (s.scrollDepthTracked d || (decide (d ∈ ds) && p.ge d))) ∧
      ys.map Sent.view =
        (ds.filter fun t => p.ge t && !s.scrollDepthTracked t).map (scrollDepthEvent p) ∧
      ys.filterMap Sent.scrollDepth =
        ds.filter fun t => p.ge t && !s.scrollDepthTracked t := by
  induction ds generalizing s out with
  | nil => exact ⟨s, [], by simp, rfl, rfl, by simp, by simp, by simp⟩
  | cons depth rest ih =>
    obtain ⟨hnot, hrest⟩ := List.nodup_cons.1 hnd
    obtain ⟨s1, ys1, h1, hu1, ht1, hf1, ho1, hd1⟩ := scrollDepthStep_spec env cfg p s out depth
    obtain ⟨s2, ys2, h2, hu2, ht2, hf2, ho2, hd2⟩ := ih hrest s1 (out ++ ys1)
    have hcongr : (rest.filter fun t => p.ge t && !s1.scrollDepthTracked t) =
        rest.filter fun t => p.ge t && !s.scrollDepthTracked t := by
      apply List.filter_congr
      intro t ht
      have hne : t ≠ depth := fun h => hnot (h ▸ ht)
      rw [hf1 t]
      simp [hne]
    refine ⟨s2, ys1 ++ ys2, ?_, hu2.trans hu1, ht2.trans ht1, ?_, ?_, ?_⟩
    · rw [List.foldl_cons, h1, h2, List.append_assoc]
    · intro d
      rw [hf2 d, hf1 d]
      by_cases hd : d = depth
      · subst hd
        simp [hnot]
      · simp [hd]
    · rw [List.map_append, ho1, ho2, hcongr, ← List.map_append, ← List.filter_append]
      rfl
    · rw [List.filterMap_append, hd1, hd2, hcongr, ← List.filter_append]
      rfl

theorem trackScrollDepth_spec (env : Env) (cfg : Config) (s : State) (p : JSNumber) :
    (trackScrollDepth env cfg s p).1.isUnloading = s.isUnloading ∧
    (trackScrollDepth env cfg s p).1.scrollTimeout = s.scrollTimeout ∧
    (∀ d, (trackScrollDepth env cfg s p).1.scrollDepthTracked d =
      (s.scrollDepthTracked d || (decide (d ∈ depths) && p.ge d))) ∧
    (trackScrollDepth env cfg s p).2.map Sent.view =
      (depths.filter fun t => p.ge t && !s.scrollDepthTracked t).map (scrollDepthEvent p) ∧
    emittedDepths (trackScrollDepth env cfg s p).2 =
      depths.filter fun t => p.ge t && !s.scrollDepthTracked t := by
  obtain ⟨s', ys, h, hu, ht, hf, ho, hd⟩ :=
    scrollDepth_fold env cfg p depths (by decide) s []
  unfold trackScrollDepth emittedDepths
  rw [h]
  exact ⟨hu, ht, hf, by simpa using ho, by simpa using hd⟩

theorem flagsMatch_trackScrollDepth (env : Env) (cfg : Config) (s : State) (p : JSNumber)
    (E : List Nat) (h : FlagsMatch s E) :
    FlagsMatch (trackScrollDepth env cfg s p).1
      (E ++ emittedDepths (trackScrollDepth env cfg s p).2) := by
  obtain ⟨_, _, hf, _, hd⟩ := trackScrollDepth_spec env cfg s p
  obtain ⟨hm, hn⟩ := h
  rw [hd]
  constructor
  · intro d
    rw [hf d, List.mem_append, List.mem_filter, ← hm d]
    cases s.scrollDepthTracked d <;> cases p.ge d <;> simp
  · rw [List.nodup_append]
    refine ⟨hn, List.Nodup.filter _ (by decide), ?_⟩
    intro d hdE hdF
    have h1 := (hm d).2 hdE
    have h2 := (List.mem_filter.1 hdF).2
    simp [h1] at h2

theorem flagsMatch_scrollEvaluations (env : Env) (cfg : Config) (ps : List JSNumber) (s : State)
    (E : List Nat) (h : FlagsMatch s E) :
    FlagsMatch (scrollEvaluations env cfg s ps).1
      (E ++ emittedDepths (scrollEvaluations env cfg s ps).2.flatten) := by
  induction ps generalizing s E with
  | nil => simpa [scrollEvaluations, emittedDepths] using h
  | cons p ps ih =>
    have h1 := flagsMatch_trackScrollDepth env cfg s p E h
    have h2 := ih _ _ h1
    simpa [scrollEvaluations, emittedDepths, List.filterMap_append, List.append_assoc] using h2

/-! ## Lemmas: listeners and runs -/

theorem trackEvent_isUnloading (env : Env) (cfg : Config) (s : State) (sig : String)
    (d : Details) : (trackEvent env cfg s sig d).1.isUnloading = s.isUnloading := by
  by_cases hsig : sig = ""
  · simp [trackEvent, hsig]
  · obtain ⟨id, item, h⟩ := trackEvent_spec env cfg s sig d hsig
    rw [h]

theorem trackEvent_scrollTimeout (env : Env) (cfg : Config) (s : State) (sig : String)
    (d : Details) : (trackEvent env cfg s sig d).1.scrollTimeout = s.scrollTimeout := by
  by_cases hsig : sig = ""
  · simp [trackEvent, hsig]
  · obtain ⟨id, item, h⟩ := trackEvent_spec env cfg s sig d hsig
    rw [h]

/-- Every delivery of `trackEvent` carries the event name it was called with, and none is a
`page_blur` made while unloading. -/
theorem trackEvent_signal (env : Env) (cfg : Config) (s : State) (sig : String) (d : Details)
    (x : Sent) (hx : x ∈ (trackEvent env cfg s sig d).2) :
    x.signal = some sig ∧ ¬ (sig = "page_blur" ∧ s.isUnloading = true) := by
  by_cases hsig : sig = ""
  · simp [trackEvent, hsig] at hx
  · obtain ⟨id, item, h⟩ := trackEvent_spec env cfg s sig d hsig
    rw [h] at hx
    simp only at hx
    split at hx
    · cases hx
    · rename_i hn
      rw [List.mem_singleton] at hx
      subst hx
      exact ⟨rfl, hn⟩

theorem trackScrollDepth_signal (env : Env) (cfg : Config) (s : State) (p : JSNumber)
    (x : Sent) (hx : x ∈ (trackScrollDepth env cfg s p).2) : x.signal = some "scroll_depth" := by
  obtain ⟨_, _, _, ho, _⟩ := trackScrollDepth_spec env cfg s p
  have hmem : x.view ∈ (trackScrollDepth env cfg s p).2.map Sent.view := List.mem_map_of_mem _ hx
  rw [ho, List.mem_map] at hmem
  obtain ⟨t, _, ht⟩ := hmem
  have := congrArg Prod.fst ht
  simpa [Sent.view, scrollDepthEvent] using this.symm

theorem onClick_isUnloading (env : Env) (cfg : Config) (s : State) (target : Option Element) :
    (onClick env cfg s target).1.isUnloading = s.isUnloading := by
  unfold onClick
  repeat' split
  all_goals simp only [trackEvent_isUnloading]

theorem onClick_signal (env : Env) (cfg : Config) (s : State) (target : Option Element)
    (x : Sent) (hx : x ∈ (onClick env cfg s target).2) :
    x.signal = some "click" ∨ x.signal = some "outlink" := by
  unfold onClick at hx
  repeat' split at hx
  all_goals simp only [List.mem_append, List.not_mem_nil] at hx
  all_goals first
    | exact absurd hx id
    | exact Or.inl (trackEvent_signal _ _ _ _ _ x hx).1
    | (rcases hx with hx | hx
       · first
          | exact Or.inl (trackEvent_signal _ _ _ _ _ x hx).1
          | exact absurd hx id
       · exact Or.inr (trackEvent_signal _ _ _ _ _ x hx).1)

/-- A delivery of a handler is a `page_blur` only when the signal is a blur and the page is not
unloading. -/
theorem handle_page_blur (env : Env) (cfg : Config) (s : State) (sig : Signal) (x : Sent)
    (hx : x ∈ (handle env cfg s sig).2) (hb : x.signal = some "page_blur") :
    sig = .blur ∧ s.isUnloading = false := by
  cases sig with
  | click target =>
    rcases onClick_signal env cfg s target x hx with h | h <;> rw [h] at hb <;> exact absurd hb (by decide)
  | focus =>
    simp only [handle] at hx
    split at hx
    · have := (trackEvent_signal _ _ _ _ _ x hx).1
      rw [this] at hb; exact absurd hb (by decide)
    · cases hx
  | blur =>
    simp only [handle] at hx
    split at hx
    · rename_i h; exact ⟨rfl, h⟩
    · cases hx
  | beforeunload =>
    simp only [handle] at hx
    have := (trackEvent_signal _ _ _ _ _ x hx).1
    rw [this] at hb; exact absurd hb (by decide)
  | scroll => simp [handle] at hx
  | scrollTimer p =>
    simp only [handle] at hx
    split at hx
    · have := trackScrollDepth_signal _ _ _ _ x hx
      rw [this] at hb; exact absurd hb (by decide)
    · cases hx

/-- No handler resets the unload flag. -/
theorem handle_isUnloading (env : Env) (cfg : Config) (s : State) (sig : Signal)
    (h : s.isUnloading = true) : (handle env cfg s sig).1.isUnloading = true := by
  cases sig with
  | click target => simp only [handle, onClick_isUnloading, h]
  | focus => simp only [handle]; split <;> simp [trackEvent_isUnloading, h]
  | blur => simp only [handle]; split <;> simp [trackEvent_isUnloading, h]
  | beforeunload => simp only [handle, trackEvent_isUnloading]
  | scroll => simp [handle, h]
  | scrollTimer p =>
    simp only [handle]
    split
    · rw [(trackScrollDepth_spec env cfg _ p).1]; exact h
    · exact h

theorem handle_beforeunload (env : Env) (cfg : Config) (s : State) :
    (handle env cfg s .beforeunload).1.isUnloading = true ∧
    (handle env cfg s .beforeunload).2.map Sent.signal = [some "page_unload"] := by
  obtain ⟨id, item, h⟩ := trackEvent_spec env cfg { s with isUnloading := true } "page_unload"
    Details.empty (by decide)
  simp only [handle]
  rw [h]
  exact ⟨rfl, by simp [Sent.signal, buildPayload]⟩

theorem step_listeners (env : Env) (ag : Agent) (sig : Signal) :
    (ag.step env sig).1.listeners = ag.listeners ∧ (ag.step env sig).1.cfg = ag.cfg := by
  unfold Agent.step
  split
  · split <;> simp
  · simp

theorem run_append (env : Env) (ag : Agent) (xs ys : List Signal) :
    Agent.run env ag (xs ++ ys) =
      ((Agent.run env (Agent.run env ag xs).1 ys).1,
        (Agent.run env ag xs).2 ++ (Agent.run env (Agent.run env ag xs).1 ys).2) := by
  induction xs generalizing ag with
  | nil => simp [Agent.run]
  | cons x xs ih => simp [Agent.run, ih]

theorem run_length (env : Env) (ag : Agent) (xs : List Signal) :
    (Agent.run env ag xs).2.length = xs.length := by
  induction xs generalizing ag with
  | nil => simp [Agent.run]
  | cons x xs ih => simp [Agent.run, ih]

/-- The agents start-up leaves: either inert, with no listener, or with all five. -/
theorem init_listeners (env : Env) (url : Option String) (key : String) (ag : Agent)
    (sent : List Sent) (h : init env url key = .ok (ag, sent)) :
    ag.listeners = [] ∨ ag.listeners = ["click", "focus", "blur", "beforeunload", "scroll"] := by
  unfold init at h
  split at h
  · cases h
  · simp only at h
    split at h
    · cases h; exact Or.inl rfl
    · split at h
      · cases h
      · cases h; exact Or.inr rfl

theorem step_blurSilenced (env : Env) (ag : Agent) (sig : Signal) (h : BlurSilenced ag) :
    BlurSilenced (ag.step env sig).1 ∧ ∀ x ∈ (ag.step env sig).2, x.signal ≠ some "page_blur" := by
  unfold Agent.step
  cases hn : sig.eventName with
  | some name =>
    simp only
    split
    · rename_i hreg
      refine ⟨fun hb => handle_isUnloading env ag.cfg ag.state sig (h hb), ?_⟩
      intro x hx hbl
      obtain ⟨hs, hu⟩ := handle_page_blur env ag.cfg ag.state sig x hx hbl
      subst hs
      simp only [Signal.eventName, Option.some.injEq] at hn
      subst hn
      rw [h hreg] at hu
      cases hu
    · exact ⟨h, fun x hx => by cases hx⟩
  | none =>
    simp only
    refine ⟨fun hb => handle_isUnloading env ag.cfg ag.state sig (h hb), ?_⟩
    intro x hx hbl
    obtain ⟨hs, _⟩ := handle_page_blur env ag.cfg ag.state sig x hx hbl
    subst hs
    cases hn

theorem run_blurSilenced (env : Env) (sigs : List Signal) (ag : Agent) (h : BlurSilenced ag) :
    ∀ out ∈ (Agent.run env ag sigs).2, ∀ x ∈ out, x.signal ≠ some "page_blur" := by
  induction sigs generalizing ag with
  | nil => intro out hout; simp [Agent.run] at hout
  | cons sig rest ih =>
    obtain ⟨h1, h2⟩ := step_blurSilenced env ag sig h
    intro out hout
    simp only [Agent.run, List.mem_cons] at hout
    rcases hout with rfl | hout
    · exact h2
    · exact ih _ h1 out hout

theorem run_listeners (env : Env) (sigs : List Signal) (ag : Agent) :
    (Agent.run env ag sigs).1.listeners = ag.listeners := by
  induction sigs generalizing ag with
  | nil => rfl
  | cons sig rest ih => simp [Agent.run, ih, (step_listeners env ag sig).1]

theorem loadPixel_spec (env : Env) (cfg : Config) (s : State) (hkey : cfg.apiKey ≠ "") :
    ∃ id item, loadPixel env cfg s =
      ({ s with runs := s.runs + 1, stored := item },
        [Sent.bootstrap id cfg.trackingID (pixelCall cfg id)]) := by
  obtain ⟨id, st, hok⟩ := env_getDeviceId_ok env s.stored (env.ambient s.runs)
  refine ⟨id, st.item, ?_⟩
  unfold loadPixel
  simp only [hkey, if_false, hok]

theorem lastSegment_empty : lastSegment "" = "" := by decide

theorem outlink_of_trackEvent_click (env : Env) (cfg : Config) (s : State) (d : Details) :
    (trackEvent env cfg s "click" d).2.filterMap Sent.outlink = [] := by
  obtain ⟨id, item, h⟩ := trackEvent_spec env cfg s "click" d (by decide)
  rw [h]
  simp [Sent.outlink, buildPayload]

theorem outlink_of_trackEvent_outlink (env : Env) (cfg : Config) (s : State) (props : Props)
    (href : String) :
    (trackEvent env cfg s "outlink" ⟨some props, some href⟩).2.filterMap Sent.outlink
      = [some href] := by
  obtain ⟨id, item, h⟩ := trackEvent_spec env cfg s "outlink" ⟨some props, some href⟩ (by decide)
  rw [h]
  simp [Sent.outlink, buildPayload]

theorem trackEvent_wire (env : Env) (cfg : Config) (s : State) (sig : String) (d : Details)
    (x : Sent) (hx : x ∈ (trackEvent env cfg s sig d).2) : WireFormat cfg x := by
  by_cases hsig : sig = ""
  · simp [trackEvent, hsig] at hx
  · obtain ⟨id, item, h⟩ := trackEvent_spec env cfg s sig d hsig
    rw [h] at hx
    simp only at hx
    split at hx
    · cases hx
    · rw [List.mem_singleton] at hx
      subst hx
      rfl

theorem scrollDepthStep_wire (env : Env) (cfg : Config) (p : JSNumber) (acc : State × List Sent)
    (depth : Nat) (h : ∀ x ∈ acc.2, WireFormat cfg x) :
    ∀ x ∈ (scrollDepthStep env cfg p acc depth).2, WireFormat cfg x := by
  unfold scrollDepthStep
  split
  · intro x hx
    simp only [List.mem_append] at hx
    rcases hx with hx | hx
    · exact h x hx
    · exact trackEvent_wire _ _ _ _ _ x hx
  · exact h

theorem trackScrollDepth_wire (env : Env) (cfg : Config) (s : State) (p : JSNumber) :
    ∀ x ∈ (trackScrollDepth env cfg s p).2, WireFormat cfg x := by
  unfold trackScrollDepth
  have key : ∀ (ds : List Nat) (acc : State × List Sent), (∀ x ∈ acc.2, WireFormat cfg x) →
      ∀ x ∈ (ds.foldl (scrollDepthStep env cfg p) acc).2, WireFormat cfg x := by
    intro ds
    induction ds with
    | nil => intro acc h; simpa using h
    | cons d ds ih =>
      intro acc h
      rw [List.foldl_cons]
      exact ih _ (scrollDepthStep_wire env cfg p acc d h)
  exact key depths (s, []) (fun x hx => by cases hx)

theorem onClick_wire (env : Env) (cfg : Config) (s : State) (target : Option Element) :
    ∀ x ∈ (onClick env cfg s target).2, WireFormat cfg x := by
  intro x hx
  unfold onClick at hx
  repeat' split at hx
  all_goals simp only [List.mem_append, List.not_mem_nil] at hx
  all_goals first
    | exact absurd hx id
    | exact trackEvent_wire _ _ _ _ _ x hx
    | (rcases hx with hx | hx
       · first
          | exact trackEvent_wire _ _ _ _ _ x hx
          | exact absurd hx id
       · exact trackEvent_wire _ _ _ _ _ x hx)

theorem handle_wire (env : Env) (cfg : Config) (s : State) (sig : Signal) :
    ∀ x ∈ (handle env cfg s sig).2, WireFormat cfg x := by
  intro x hx
  cases sig with
  | click target => exact onClick_wire env cfg s target x hx
  | focus =>
    simp only [handle] at hx
    split at hx
    · exact trackEvent_wire _ _ _ _ _ x hx
    · cases hx
  | blur =>
    simp only [handle] at hx
    split at hx
    · exact trackEvent_wire _ _ _ _ _ x hx
    · cases hx
  | beforeunload => exact trackEvent_wire _ _ _ _ _ x hx
  | scroll => simp [handle] at hx
  | scrollTimer p =>
    simp only [handle] at hx
    split at hx
    · exact trackScrollDepth_wire _ _ _ _ x hx
    · cases hx

theorem step_wire (env : Env) (ag : Agent) (sig : Signal) :
    ∀ x ∈ (ag.step env sig).2, WireFormat ag.cfg x := by
  intro x hx
  unfold Agent.step at hx
  split at hx
  · split at hx
    · exact handle_wire env ag.cfg ag.state sig x hx
    · cases hx
  · exact handle_wire env ag.cfg ag.state sig x hx

theorem run_wire (env : Env) (sigs : List Signal) (ag : Agent) :
    ∀ x ∈ (Agent.run env ag sigs).2.flatten, WireFormat ag.cfg x := by
  induction sigs generalizing ag with
  | nil => intro x hx; simp [Agent.run] at hx
  | cons sig rest ih =>
    intro x hx
    simp only [Agent.run, List.flatten_cons, List.mem_append] at hx
    rcases hx with hx | hx
    · exact step_wire env ag sig x hx
    · have := ih (ag.step env sig).1 x hx
      rwa [(step_listeners env ag sig).2] at this

theorem loadPixel_wire (env : Env) (cfg : Config) (s : State) :
    ∀ x ∈ (loadPixel env cfg s).2, WireFormat cfg x := by
  intro x hx
  by_cases hkey : cfg.apiKey = ""
  · simp [loadPixel, hkey] at hx
  · obtain ⟨id, item, h⟩ := loadPixel_spec env cfg s hkey
    rw [h, List.mem_singleton] at hx
    subst hx
    exact ⟨rfl, rfl⟩

theorem init_wire (env : Env) (url : Option String) (key : String) (ag : Agent)
    (sent : List Sent) (h : init env url key = .ok (ag, sent)) :
    ag.cfg.apiKey = key ∧ (∀ u, url = some u → ag.cfg.trackingID = lastSegment u) ∧
      ∀ x ∈ sent, WireFormat ag.cfg x := by
  unfold init at h
  split at h
  · cases h
  · rename_i u
    simp only at h
    split at h
    · cases h
      exact ⟨rfl, fun u' hu => by cases hu; rfl, fun x hx => by cases hx⟩
    · split at h
      · cases h
      · cases h
        refine ⟨rfl, fun u' hu => by cases hu; rfl, ?_⟩
        intro x hx
        simp only [List.mem_append] at hx
        rcases hx with hx | hx
        · exact trackEvent_wire _ _ _ _ _ x hx
        · exact loadPixel_wire _ _ _ x hx

theorem encode_stringify_head (fields : List (String × JSVal)) :
    (encodeURIComponent (stringify fields)).toList.take 3 = ['%', '7', 'B'] := by
  unfold encodeURIComponent stringify
  simp only [String.toList, String.data_append]
  rfl


/-! ## The claims -/

/-- Claim C1. From the flags all false, after any sequence of scroll evaluations with any
percentages, an evaluation with percentage `p` delivers `scroll_depth`, in ascending order and
with `customProperties` `scrollDepth: t, scrollPercent: p`, for exactly the thresholds `t` of
25, 50, 75, 100 with `p >= t` that no earlier evaluation delivered; over the whole sequence no
threshold is delivered twice, and a flag that is set stays set. -/
theorem scroll_depth_emits_unfired_thresholds (env : Env) (cfg : Config) (s : State)
    (ps : List JSNumber) (p : JSNumber) (h0 : ∀ d, s.scrollDepthTracked d = false) :
    (trackScrollDepth env cfg (scrollEvaluations env cfg s ps).1 p).2.map Sent.view =
      (depths.filter fun t =>
          p.ge t && decide (t ∉ emittedDepths (scrollEvaluations env cfg s ps).2.flatten)).map
        (scrollDepthEvent p) ∧
    (emittedDepths ((scrollEvaluations env cfg s ps).2.flatten ++
        (trackScrollDepth env cfg (scrollEvaluations env cfg s ps).1 p).2)).Nodup ∧
    (∀ d, (scrollEvaluations env cfg s ps).1.scrollDepthTracked d = true →
      (trackScrollDepth env cfg (scrollEvaluations env cfg s ps).1 p).1.scrollDepthTracked d
        = true) := by
  have hinit : FlagsMatch s [] := ⟨fun d => by simp [h0 d], List.nodup_nil⟩
  have hb := flagsMatch_scrollEvaluations env cfg ps s [] hinit
  rw [List.nil_append] at hb
  have hn := flagsMatch_trackScrollDepth env cfg _ p _ hb
  obtain ⟨_, _, hf, ho, _⟩ := trackScrollDepth_spec env cfg (scrollEvaluations env cfg s ps).1 p
  refine ⟨?_, ?_, ?_⟩
  · rw [ho]
    congr 1
    apply List.filter_congr
    intro t _
    have := hb.1 t
    cases hc : (scrollEvaluations env cfg s ps).1.scrollDepthTracked t
    · have : t ∉ emittedDepths (scrollEvaluations env cfg s ps).2.flatten := fun hm => by
        rw [← this, hc] at hm; cases hm
      simp [this]
    · have : t ∈ emittedDepths (scrollEvaluations env cfg s ps).2.flatten := this.1 hc
      simp [this]
  · have := hn.2
    simpa [emittedDepths, List.filterMap_append] using this
  · intro d hd
    rw [hf d, hd]
    rfl

/-- Claim C1 at its example: no scrolling, a viewport 800 high and a document 1000 high are
80 per cent; an evaluation at 80 delivers 25, 50 and 75 and not 100, and a later one at 100
delivers 100 alone. -/
theorem scroll_depth_emits_unfired_thresholds_witness :
    scrollPercent ⟨0, 0, 1000, 1000, 800, 1000, 1000, 800⟩ = .int 80 ∧
    (trackScrollDepth sampleEnv sampleConfig (State.initial sampleEnv) (.int 80)).2.map Sent.view
      = [scrollDepthEvent (.int 80) 25, scrollDepthEvent (.int 80) 50,
          scrollDepthEvent (.int 80) 75] ∧
    (trackScrollDepth sampleEnv sampleConfig
        (scrollEvaluations sampleEnv sampleConfig (State.initial sampleEnv) [.int 80]).1
        (.int 100)).2.map Sent.view
      = [scrollDepthEvent (.int 100) 100] :=
  ⟨by decide, rfl,
    (scroll_depth_emits_unfired_thresholds sampleEnv sampleConfig (State.initial sampleEnv)
      [.int 80] (.int 100) (fun _ => rfl)).1.trans rfl⟩

/-- Claim C2. For an agent that start-up has left, and any signals `pre` and `post`: among the
deliveries made for `post`, the signals after an unload signal, there is no `page_blur`. The
unload handler has the flag set when it delivers `page_unload`, and no handler resets the
flag. -/
theorem page_blur_suppressed_after_unload (env : Env) (url : Option String) (key : String)
    (ag : Agent) (sent : List Sent) (hinit : init env url key = .ok (ag, sent))
    (pre post : List Signal) :
    some "page_blur" ∉
      (((Agent.run env ag (pre ++ Signal.beforeunload :: post)).2.drop
        (pre.length + 1)).flatten.map Sent.signal) ∧
    (∀ cfg s, (handle env cfg s .beforeunload).1.isUnloading = true ∧
      (handle env cfg s .beforeunload).2.map Sent.signal = [some "page_unload"]) ∧
    (∀ cfg s sig, s.isUnloading = true → (handle env cfg s sig).1.isUnloading = true) := by
  refine ⟨?_, fun cfg s => handle_beforeunload env cfg s,
    fun cfg s sig h => handle_isUnloading env cfg s sig h⟩
  have hsplit : pre ++ Signal.beforeunload :: post = (pre ++ [Signal.beforeunload]) ++ post := by
    simp
  rw [hsplit, run_append]
  simp only
  have hlen : (Agent.run env ag (pre ++ [Signal.beforeunload])).2.length = pre.length + 1 := by
    rw [run_length]; simp
  rw [List.drop_append_eq_append_drop, ← hlen, List.drop_length, Nat.sub_self, List.drop_zero,
    List.nil_append]
  have hsil : BlurSilenced (Agent.run env ag (pre ++ [Signal.beforeunload])).1 := by
    rw [run_append]
    simp only [Agent.run]
    intro hb
    have hl1 : (Agent.run env ag pre).1.listeners = ag.listeners := run_listeners env pre ag
    rw [(step_listeners env _ _).1, hl1] at hb
    have hall : ag.listeners = ["click", "focus", "blur", "beforeunload", "scroll"] := by
      rcases init_listeners env url key ag sent hinit with h | h
      · rw [h] at hb; cases hb
      · exact h
    unfold Agent.step
    simp only [Signal.eventName, hl1, hall]
    rw [if_pos (by decide)]
    exact (handle_beforeunload env _ _).1
  intro hmem
  obtain ⟨x, hx, hsig⟩ := List.mem_map.1 hmem
  obtain ⟨out, hout, hxo⟩ := List.mem_flatten.1 hx
  exact run_blurSilenced env post _ hsil out hout x hxo hsig

/-- Claim C2 at an example: blur, unload, blur, focus. -/
theorem page_blur_suppressed_after_unload_witness :
    ∃ ag sent, init sampleEnv (some "https://relay.example/t/abc123") "key" = .ok (ag, sent) ∧
      some "page_blur" ∉
        (((Agent.run sampleEnv ag
          ([Signal.blur] ++ Signal.beforeunload :: [Signal.blur, Signal.focus])).2.drop
            ([Signal.blur].length + 1)).flatten.map Sent.signal) :=
  ⟨_, _, rfl,
    (page_blur_suppressed_after_unload sampleEnv (some "https://relay.example/t/abc123") "key"
      _ _ rfl [Signal.blur] [Signal.blur, Signal.focus]).1⟩

/-- Claim C3, as the code has it: in every state a focus signal makes the focus listener deliver
exactly one `page_focus` when the unload flag is false, and nothing when it is true. -/
theorem focus_emits_unless_unloading (env : Env) (cfg : Config) (s : State) :
    (handle env cfg s .focus).2.map Sent.signal =
      if s.isUnloading = true then [] else [some "page_focus"] := by
  simp only [handle]
  cases hu : s.isUnloading
  · obtain ⟨id, item, h⟩ := trackEvent_spec env cfg s "page_focus" Details.empty (by decide)
    simp [h, Sent.signal, buildPayload]
  · simp

/-- Claim C3 fails as stated: after the unload signal, a focus signal delivers nothing. -/
theorem focus_suppressed_after_unload :
    ∃ ag sent, init sampleEnv (some "https://relay.example/t/abc123") "key" = .ok (ag, sent) ∧
      (Agent.run sampleEnv ag [.beforeunload, .focus]).2.map (List.map Sent.signal)
        = [[some "page_unload"], []] :=
  ⟨_, _, rfl, rfl⟩

/-- Where storage works and holds a non-empty identifier, or holds none while
`crypto.randomUUID` is present, returns a non-empty identifier and `setItem` succeeds, two calls
of `getDeviceId` in sequence return the same identifier, whatever the two clock readings and
whatever the generator offers at the second call. -/
theorem getDeviceId_twice_same (st : Storage) (gen₁ gen₂ : RandomUUID) (now₁ now₂ : Nat)
    (hav : st.available = true) (hget : st.getThrows = false)
    (h : truthy st.item = true ∨
      (truthy st.item = false ∧ st.setThrows = false ∧ ∃ ids, gen₁ = .returns ids ∧ ids 0 ≠ "")) :
    ∃ id st₁ st₂, getDeviceId st gen₁ now₁ = .ok (id, st₁) ∧
      getDeviceId st₁ gen₂ now₂ = .ok (id, st₂) := by
  rcases h with ht | ⟨ht, hset, ids, rfl, hid⟩
  · cases hi : st.item with
    | none => rw [hi] at ht; cases ht
    | some d =>
      have hd : d ≠ "" := by rw [hi] at ht; simpa [truthy] using ht
      exact ⟨d, st, st, getDeviceId_stored st gen₁ now₁ d hav hget hi hd,
        getDeviceId_stored st gen₂ now₂ d hav hget hi hd⟩
  · refine ⟨ids 0, { st with item := some (ids 0) }, { st with item := some (ids 0) },
      getDeviceId_fresh st ids now₁ hav hget hset ht hid, ?_⟩
    exact getDeviceId_stored _ gen₂ now₂ (ids 0) hav hget rfl hid

/-- Claim C4 on the code: with working, empty storage and no `crypto.randomUUID`, two calls of
`getDeviceId` in sequence, at clock readings 1 and 2, return the different identifiers
`unknown-1` and `unknown-2`, and neither call stores anything. -/
theorem getDeviceId_not_idempotent_without_generator :
    getDeviceId emptyStorage .absent 1 = .ok ("unknown-1", emptyStorage) ∧
    getDeviceId emptyStorage .absent 2 = .ok ("unknown-2", emptyStorage) ∧
    "unknown-1" ≠ "unknown-2" :=
  ⟨rfl, rfl, by decide⟩

/-- Claim C5, as the code has it: `getDeviceId` returns, and returns a non-empty string, for
every storage (reachable or not, raising on read or on write, holding anything, the empty
string included) whenever `crypto.randomUUID` is present or missing; with a raising
`crypto.randomUUID` it still does so when storage is readable and holds a non-empty
identifier. -/
theorem getDeviceId_returns_nonempty (st : Storage) (gen : RandomUUID) (now : Nat)
    (h : gen ≠ .throws ∨ (st.available = true ∧ st.getThrows = false ∧ truthy st.item = true)) :
    ∃ id st', getDeviceId st gen now = .ok (id, st') ∧ id ≠ "" := by
  have hne : ¬ ∃ e, getDeviceId st gen now = .error e := by
    rw [getDeviceId_error_iff]
    rintro ⟨hg, hs⟩
    rcases h with h | h
    · exact h hg
    · exact hs h
  cases hr : getDeviceId st gen now with
  | error e => exact absurd ⟨e, hr⟩ hne
  | ok r =>
    obtain ⟨d, hd⟩ := getDeviceId_ok_form hr
    refine ⟨r.1, r.2, rfl, ?_⟩
    rw [hd]
    exact orUnknown_ne_empty d now

/-- Claim C5 at an example: storage unreachable, no generator. -/
theorem getDeviceId_returns_nonempty_witness :
    ∃ id st', getDeviceId ⟨false, true, true, some ""⟩ .absent 7 = .ok (id, st') ∧ id ≠ "" :=
  getDeviceId_returns_nonempty ⟨false, true, true, some ""⟩ .absent 7 (Or.inl (by simp))

/-- Claim C5 fails as stated: with empty storage and a `crypto.randomUUID` that raises, the call
raises: the exception of line 47 is caught, line 53 calls the generator again, outside any
`try`. -/
theorem getDeviceId_throws_when_generator_throws :
    getDeviceId emptyStorage .throws 7 = .error .hostError := by
  rfl

/-- Claim C6, as the code has it: for a tracking URL whose last segment is non-empty and which
does not contain the text `TRACKING_ENDPOINT`, a non-empty key, and a browser in which reading
`window.localStorage` does not raise, start-up makes exactly two deliveries, one `pageview` and
one bootstrap call whose options carry `trackingId` equal to the last segment, and registers the
five listeners. -/
theorem init_delivers_pageview_and_bootstrap (env : Env) (url apiKey : String)
    (hseg : lastSegment url ≠ "") (hkey : apiKey ≠ "")
    (hph : includes url "TRACKING_ENDPOINT" = false)
    (hst : env.storageAccess ≠ .blocked) :
    ∃ ag p c d, init env (some url) apiKey =
        .ok (ag, [Sent.event p c,
          Sent.bootstrap d (lastSegment url)
            (pixelCall ⟨apiKey, debugMode env, lastSegment url⟩ d)]) ∧
      p.eventSignal = "pageview" ∧
      (pixelCall ⟨apiKey, debugMode env, lastSegment url⟩ d).options =
        encodeURIComponent
          (stringify [("deviceId", .string d), ("trackingId", .string (lastSegment url))]) ∧
      ag.listeners = ["click", "focus", "blur", "beforeunload", "scroll"] := by
  have hurl : url ≠ "" := fun h => hseg (h ▸ lastSegment_empty)
  obtain ⟨id1, item1, h1⟩ := trackEvent_spec env ⟨apiKey, debugMode env, lastSegment url⟩
    (State.initial env) "pageview" Details.empty (by decide)
  obtain ⟨id2, item2, h2⟩ := loadPixel_spec env ⟨apiKey, debugMode env, lastSegment url⟩
    (trackEvent env ⟨apiKey, debugMode env, lastSegment url⟩ (State.initial env) "pageview"
      Details.empty).1 hkey
  have hr1 : (trackEvent env ⟨apiKey, debugMode env, lastSegment url⟩ (State.initial env)
      "pageview" Details.empty).2 =
      [Sent.event (buildPayload (env.ambient (State.initial env).runs) id1 "pageview"
          Details.empty)
        (trackCall ⟨apiKey, debugMode env, lastSegment url⟩
          (buildPayload (env.ambient (State.initial env).runs) id1 "pageview"
            Details.empty))] := by
    rw [h1]
    simp only [show ¬ ("pageview" = "page_blur" ∧ (State.initial env).isUnloading = true) from
      fun h => absurd h.1 (by decide), if_false]
  have hr2 := congrArg Prod.snd h2
  simp only at hr2
  refine ⟨⟨⟨apiKey, debugMode env, lastSegment url⟩,
      ["click", "focus", "blur", "beforeunload", "scroll"],
      (loadPixel env ⟨apiKey, debugMode env, lastSegment url⟩
        (trackEvent env ⟨apiKey, debugMode env, lastSegment url⟩ (State.initial env) "pageview"
          Details.empty).1).1⟩,
    buildPayload (env.ambient (State.initial env).runs) id1 "pageview" Details.empty,
    trackCall ⟨apiKey, debugMode env, lastSegment url⟩
      (buildPayload (env.ambient (State.initial env).runs) id1 "pageview" Details.empty),
    id2, ?_, rfl, rfl, ?_⟩
  · unfold init
    simp only [hurl, hph, hseg, hst, or_self, if_false, Bool.false_eq_true]
    rw [hr1, hr2]
    rfl
  · rfl

/-- Claim C6 at its example: an endpoint ending in `/t/abc123`. -/
theorem init_delivers_pageview_and_bootstrap_witness :
    lastSegment "https://relay.example/t/abc123" = "abc123" ∧
    ∃ ag p c d, init sampleEnv (some "https://relay.example/t/abc123") "key" =
        .ok (ag, [Sent.event p c,
          Sent.bootstrap d (lastSegment "https://relay.example/t/abc123")
            (pixelCall ⟨"key", debugMode sampleEnv,
              lastSegment "https://relay.example/t/abc123"⟩ d)]) ∧
      p.eventSignal = "pageview" ∧
      (pixelCall ⟨"key", debugMode sampleEnv,
          lastSegment "https://relay.example/t/abc123"⟩ d).options =
        encodeURIComponent
          (stringify [("deviceId", .string d),
            ("trackingId", .string (lastSegment "https://relay.example/t/abc123"))]) ∧
      ag.listeners = ["click", "focus", "blur", "beforeunload", "scroll"] :=
  ⟨by decide,
    init_delivers_pageview_and_bootstrap sampleEnv "https://relay.example/t/abc123" "key"
      (by decide) (by decide) (by decide) (by decide)⟩

/-- Claim C6 fails as stated: a URL that contains the text `TRACKING_ENDPOINT` has the non-empty
last segment `abc123`, and start-up with it and a non-empty key delivers nothing and registers
no listener; and where reading `window.localStorage` raises, start-up with the endpoint
`.../t/abc123` and a key ends with that exception on line 16, before any delivery. -/
theorem init_inert_on_placeholder :
    lastSegment "https://relay.example/TRACKING_ENDPOINT/abc123" = "abc123" ∧
    (∃ ag, init sampleEnv (some "https://relay.example/TRACKING_ENDPOINT/abc123") "key"
        = .ok (ag, []) ∧ ag.listeners = []) ∧
    init blockedEnv (some "https://relay.example/t/abc123") "key" = .error .hostError :=
  ⟨by decide, ⟨_, rfl, rfl⟩, rfl⟩

/-- Claim C7 on the code: with the tracking URL not supplied, start-up ends with a `TypeError`
(line 4 calls `split` on `undefined` before the guard of line 8 is reached); with the empty
string, or a URL whose last segment is empty, it returns with no listener and no delivery. -/
theorem init_raises_on_absent_url (env : Env) (apiKey : String) :
    init env none apiKey = .error .typeError ∧
    (∃ ag, init env (some "") apiKey = .ok (ag, []) ∧ ag.listeners = []) ∧
    (∃ ag, init env (some "https://relay.example/t/") apiKey = .ok (ag, []) ∧
      ag.listeners = []) :=
  ⟨rfl, ⟨_, rfl, rfl⟩, ⟨_, rfl, rfl⟩⟩

/-- Claim C8. A click on an element whose closest hyperlink has a non-empty `href` that
resolves to host name `host` and address `href`: the `outlink` deliveries of the click
listener are exactly one, with `outlinkUrl` the resolved address, when `host` differs from the
host name of the page, and none when it is equal; whether the element has an `id`, and so
whether a `click` is delivered too, plays no part. -/
theorem outlink_iff_other_hostname (env : Env) (cfg : Config) (s : State) (el : Element)
    (link : Anchor) (host href : String) (hl : el.closestA = some link) (hh : link.href ≠ "")
    (hu : link.url = some (host, href)) :
    (handle env cfg s (.click (some el))).2.filterMap Sent.outlink =
      if host = env.hostname then [] else [some href] := by
  simp only [handle, onClick, hl, hh, hu, ne_eq, not_false_eq_true, if_true]
  by_cases hhost : host = env.hostname
  · simp only [hhost, not_true_eq_false, if_false, if_true]
    split
    · exact outlink_of_trackEvent_click _ _ _ _
    · rfl
  · simp only [hhost, not_false_eq_true, if_true, if_false, List.filterMap_append]
    rw [outlink_of_trackEvent_outlink]
    split
    · rw [outlink_of_trackEvent_click]; rfl
    · rfl

/-- Claim C8 at two examples: a link to another host from an element with an `id`, which
delivers a `click` and an `outlink`, and a link to the page's own host, which delivers no
`outlink`. -/
theorem outlink_iff_other_hostname_witness :
    (handle sampleEnv sampleConfig (State.initial sampleEnv)
        (.click (some outboundElement))).2.map Sent.signal = [some "click", some "outlink"] ∧
    (handle sampleEnv sampleConfig (State.initial sampleEnv)
        (.click (some outboundElement))).2.filterMap Sent.outlink
      = [some "https://shop.example/cart"] ∧
    (handle sampleEnv sampleConfig (State.initial sampleEnv)
        (.click (some internalElement))).2.filterMap Sent.outlink = [] :=
  ⟨rfl,
    (outlink_iff_other_hostname sampleEnv sampleConfig (State.initial sampleEnv)
      outboundElement outboundAnchor "shop.example" "https://shop.example/cart" rfl
      (by decide) rfl).trans rfl,
    (outlink_iff_other_hostname sampleEnv sampleConfig (State.initial sampleEnv)
      internalElement internalAnchor "site.example" "https://site.example/about" rfl
      (by decide) rfl).trans rfl⟩

/-- Claim C9, as the code has it: in every delivery made at start-up or for any later signals,
the body is `JSON.stringify` of the object of `apiKey` and `options`; for a tracking call
`options` is `JSON.stringify` of the payload; for the bootstrap call `options` is
`encodeURIComponent` of `JSON.stringify` of the object of `deviceId` and `trackingId`, with
`trackingId` the last segment of the tracking URL, and so begins with `%7B`. -/
theorem options_wire_encoding (env : Env) (url key : String) (ag : Agent) (sent : List Sent)
    (hinit : init env (some url) key = .ok (ag, sent)) (sigs : List Signal) :
    ∀ x ∈ sent ++ (Agent.run env ag sigs).2.flatten,
      match x with
      | .event p c =>
        c.options = stringify p.fields ∧
        c.body = stringify [("apiKey", .string key), ("options", .string (stringify p.fields))]
      | .bootstrap d t c =>
        t = lastSegment url ∧
        c.options =
          encodeURIComponent (stringify [("deviceId", .string d), ("trackingId", .string t)]) ∧
        c.options.toList.take 3 = ['%', '7', 'B'] ∧
        c.body = stringify [("apiKey", .string key), ("options", .string c.options)] := by
  obtain ⟨hk, ht, hw⟩ := init_wire env (some url) key ag sent hinit
  have htr := ht url rfl
  intro x hx
  have hwx : WireFormat ag.cfg x := by
    rcases List.mem_append.1 hx with h | h
    · exact hw x h
    · exact run_wire env sigs ag x h
  cases x with
  | event p c =>
    simp only [WireFormat] at hwx
    subst hwx
    simp only [trackCall, FetchCall.body, hk, and_self]
  | bootstrap d t c =>
    simp only [WireFormat] at hwx
    obtain ⟨h1, h2⟩ := hwx
    subst h1 h2
    refine ⟨htr, rfl, encode_stringify_head _, ?_⟩
    simp only [pixelCall, FetchCall.body, hk]

/-- Claim C9 at an example: start-up, then a focus and a scroll evaluation. -/
theorem options_wire_encoding_witness :
    ∃ ag sent, init sampleEnv (some "https://relay.example/t/abc123") "key" = .ok (ag, sent) ∧
      sent.length = 2 ∧
      ∀ x ∈ sent ++ (Agent.run sampleEnv ag [.focus, .scroll, .scrollTimer (.int 60)]).2.flatten,
        match x with
        | .event p c =>
          c.options = stringify p.fields ∧
          c.body =
            stringify [("apiKey", .string "key"), ("options", .string (stringify p.fields))]
        | .bootstrap d t c =>
          t = lastSegment "https://relay.example/t/abc123" ∧
          c.options =
            encodeURIComponent
              (stringify [("deviceId", .string d), ("trackingId", .string t)]) ∧
          c.options.toList.take 3 = ['%', '7', 'B'] ∧
          c.body = stringify [("apiKey", .string "key"), ("options", .string c.options)] :=
  ⟨_, _, rfl, rfl,
    options_wire_encoding sampleEnv "https://relay.example/t/abc123" "key" _ _ rfl
      [.focus, .scroll, .scrollTimer (.int 60)]⟩

/-- Claim C9 fails as stated: the options of the bootstrap call for device `d1` and tracking
identifier `abc123` are percent-encoded text, which is not the JSON encoding of the object and
does not begin like JSON text. -/
theorem bootstrap_options_not_json :
    (pixelCall sampleConfig "d1").options
      = "%7B%22deviceId%22%3A%22d1%22%2C%22trackingId%22%3A%22abc123%22%7D" ∧
    (pixelCall sampleConfig "d1").options
      ≠ stringify [("deviceId", .string "d1"), ("trackingId", .string "abc123")] ∧
    (pixelCall sampleConfig "d1").options.toList.head? = some '%' :=
  ⟨by decide, by decide, by decide⟩

/-- Claim C10 on the code: with working, empty storage, no `crypto.randomUUID` and the clock at
1700000000000, `getDeviceId` returns `unknown-1700000000000`, with or without
`crypto.getRandomValues`; `generateUUID`, which it never calls, yields there an identifier made
from the random bytes, and without them the identifier with the prefix `fa11bac0`. -/
theorem getDeviceId_ignores_generateUUID :
    getDeviceId emptyStorage .absent 1700000000000
        = .ok ("unknown-1700000000000", emptyStorage) ∧
    generateUUID ⟨.absent, some fun k => 37 * k⟩ 1700000000000
        = .ok "05af49e3-8d27-4c16-a05a-f49e38d27c16" ∧
    generateUUID ⟨.absent, none⟩ 1700000000000 = .ok "fa11bac0-0000-4000-8000-018bcfe56800" :=
  ⟨rfl, rfl, rfl⟩

end Track
